import Mathlib

/-!
Verification of the opencode web server (Express backend-for-frontend).

The definitions below are a shallow embedding of the JavaScript server
(`chatbot-ui/server.js`, final revision): the rate limiter, the router
handlers for session listings, the file-download handler, and — the core —
the prompt-streaming relay of `POST /api/sessions/:id/prompt`.

The relay is single-threaded and callback-driven: each JavaScript event-loop
task (an upstream SSE message, the `onerror` callback, the resolution or
rejection of the awaited `prompt_async` call, the safety-timeout callback,
the 300 ms grace-delay callback scheduled on `session.idle`, and the
client-connection `close` event) runs atomically.  We model one relay
invocation as a state machine: a `Trigger` is one such task, and `step`
is the task body, translated line by line from the handler.  Ghost fields
(`log`, `esCloseCount`, `clearCount`, `pendingIdle`, `idleTimes`) record
the observable side effects: `res.write`/`res.end` calls, `eventSource.close()`
invocations, `clearTimeout` invocations, deadlines of scheduled grace timers,
and arrival times of forwarded `session.idle` events.
-/

/-- An upstream event envelope as seen by `eventSource.onmessage` after
`JSON.parse`.  `sessionID` models `data.properties?.sessionID`: `none` when
the `properties` object or the field is absent. -/
structure UpEvent where
  type : String
  sessionID : Option String
deriving DecidableEq, Repr

/-- One item written to the client response stream, or the closing of the
stream (`res.end`). -/
inductive Output where
  | event (e : UpEvent)
  | done
  | error (msg : String)
  | timeout (msg : String)
  | close
deriving DecidableEq, Repr

/-- Grace delay (ms) between the `session.idle` event and the `done` write:
`setTimeout(..., 300)` in the handler. -/
def GRACE : Nat := 300

/-- State of one relay invocation (one `POST /api/sessions/:id/prompt`
request), after the synchronous prologue has run: `finished = false`, the
`EventSource` has been created (`esOpen = true`), the safety timer is not yet
armed.  `log` is the ordered record of `(time, output)` writes. -/
structure RelayState where
  id : String
  finished : Bool
  esOpen : Bool
  timerArmed : Bool
  esCloseCount : Nat
  clearCount : Nat
  pendingIdle : List Nat
  idleTimes : List Nat
  log : List (Nat × Output)
deriving DecidableEq, Repr

/-- Initial relay state for session `id`, at the first suspension point of
the handler (the `await` of the prompt call). -/
def relayInit (id : String) : RelayState :=
  { id := id, finished := false, esOpen := true, timerArmed := false
    esCloseCount := 0, clearCount := 0, pendingIdle := [], idleTimes := [], log := [] }

/-- The `cleanup` closure of the handler:
`if (!finished) { finished = true; if (safetyTimeout) clearTimeout(...); if (eventSource) eventSource.close(); }`.
The counters record how many times `clearTimeout` and `eventSource.close()`
have actually been invoked. -/
def cleanup (s : RelayState) : RelayState :=
  if s.finished then s
  else
    { s with
      finished := true
      timerArmed := false
      clearCount := s.clearCount + (if s.timerArmed then 1 else 0)
      esOpen := false
      esCloseCount := s.esCloseCount + (if s.esOpen then 1 else 0) }

/-- The session filter of `onmessage`:
`if (data.properties?.sessionID && data.properties.sessionID !== id) return;`.
JavaScript truthiness: an empty-string `sessionID` is falsy, so only a
non-empty, differing `sessionID` causes the event to be dropped. -/
def sessionFilterDrop (id : String) (e : UpEvent) : Bool :=
  match e.sessionID with
  | some sid => decide (sid ≠ "") && decide (sid ≠ id)
  | none => false

/-- Shared tail of the terminal paths: write a terminal output, run
`cleanup()`, then `res.end()` (recorded as `Output.close`). -/
def writeTerminalAndClose (now : Nat) (o : Output) (s : RelayState) : RelayState :=
  let s1 := { s with log := s.log ++ [(now, o)] }
  let s2 := cleanup s1
  { s2 with log := s2.log ++ [(now, Output.close)] }

/-- One event-loop task of the relay. -/
inductive Trigger where
  /-- `eventSource.onmessage`; `none` models an event whose `JSON.parse` throws
  (swallowed by the `catch {}`). -/
  | message (e : Option UpEvent)
  /-- `eventSource.onerror`. -/
  | esError
  /-- The awaited `prompt_async` call resolves: the handler continues and arms
  the safety timer (`safetyTimeout = setTimeout(...)`) unconditionally. -/
  | promptOk
  /-- The awaited `prompt_async` call rejects: the `catch` block runs. -/
  | promptErr (msg : String)
  /-- The safety-timeout callback fires. -/
  | safetyFire
  /-- A grace-delay callback scheduled on `session.idle` fires; `d` is its
  deadline (scheduling time + `GRACE`). -/
  | idleFire (d : Nat)
  /-- The client connection emits `close` (`req.on("close", cleanup)`). -/
  | clientClose
deriving DecidableEq, Repr

/-- The body of one event-loop task, translated from the handler. `now` is the
current time (ms) at which the task runs. -/
def step (now : Nat) (s : RelayState) : Trigger → RelayState
  | .message none => s
  | .message (some e) =>
    if s.finished then s
    else if sessionFilterDrop s.id e then s
    else
      let s1 := { s with log := s.log ++ [(now, Output.event e)] }
      if e.type = "session.idle" then
        { s1 with pendingIdle := s1.pendingIdle ++ [now + GRACE]
                  idleTimes := s1.idleTimes ++ [now] }
      else s1
  | .esError =>
    if s.finished then s
    else writeTerminalAndClose now (Output.error "SSE connection lost") s
  | .promptOk => { s with timerArmed := true }
  | .promptErr msg =>
    if s.finished then s
    else writeTerminalAndClose now (Output.error msg) s
  | .safetyFire =>
    if s.finished then s
    else writeTerminalAndClose now (Output.timeout "Response timed out after 5 minutes") s
  | .idleFire d =>
    let s0 := { s with pendingIdle := s.pendingIdle.erase d }
    if s0.finished then s0
    else writeTerminalAndClose now Output.done s0
  | .clientClose => cleanup s

/-- Run a relay from state `s` over a timed trace of event-loop tasks. -/
def runFrom (s : RelayState) : List (Nat × Trigger) → RelayState
  | [] => s
  | (t, tg) :: rest => runFrom (step t s tg) rest

/-- Run a relay for session `id` from its initial state. -/
def runRelay (id : String) (tr : List (Nat × Trigger)) : RelayState :=
  runFrom (relayInit id) tr

/-- Scheduling validity of a timed trace: a grace-delay callback fires only if
it was actually scheduled (`d ∈ pendingIdle`) and no earlier than its deadline
(the event-loop timer guarantee for `setTimeout`). -/
def validFrom (s : RelayState) : List (Nat × Trigger) → Bool
  | [] => true
  | (t, tg) :: rest =>
    (match tg with
     | .idleFire d => decide (d ∈ s.pendingIdle) && decide (d ≤ t)
     | _ => true)
    && validFrom (step t s tg) rest

/-- Is an output a terminal signal (`done`, `error`, or `timeout`)? -/
def isTerminal : Output → Bool
  | .done => true
  | .error _ => true
  | .timeout _ => true
  | _ => false

/-- Number of terminal signals in a write log. -/
def terminalCount (l : List (Nat × Output)) : Nat :=
  (l.filter (fun p => isTerminal p.2)).length

/-- Every `done` in the log is immediately followed by a `close` (`res.end`
runs right after the `done` write, in the same task). -/
def doneThenClose : List (Nat × Output) → Bool
  | [] => true
  | (_, .done) :: rest =>
    (match rest with
     | (_, .close) :: _ => true
     | _ => false) && doneThenClose rest
  | _ :: rest => doneThenClose rest

/-- No `done` has been written yet. -/
def noDone (l : List (Nat × Output)) : Prop :=
  ∀ p ∈ l, p.2 ≠ Output.done

/-!
Synchronous prologue of the `POST /api/sessions/:id/prompt` handler,
as an ordered action trace.  The handler destructures `content` from the
body, rejects falsy content (`if (!content) return res.status(400)...`),
otherwise writes the SSE headers, registers the `close` handler, creates the
upstream `EventSource` subscription, and sends the prompt via `prompt_async`;
the safety timer is armed when the awaited send resolves.
-/

/-- One externally visible action of the prompt-handler prologue. -/
inductive HandlerAction where
  /-- `res.status(status).json({ error: ... })` — a JSON error, no stream. -/
  | respond (status : Nat)
  /-- `res.writeHead(200, { "Content-Type": "text/event-stream", ... })`. -/
  | sseHeaders
  /-- `req.on("close", cleanup)`. -/
  | registerCloseHandler
  /-- `new EventSource(OPENCODE_SERVER_URL + "/event")` — subscribe to the
  upstream global event feed. -/
  | subscribe
  /-- `await opencodeAPI("/session/" + id + "/prompt_async", ...)` — submit the
  prompt upstream. -/
  | sendPrompt (sessionId content : String)
  /-- `safetyTimeout = setTimeout(..., 5 * 60 * 1000)`. -/
  | armSafetyTimer
deriving DecidableEq, Repr

/-- Action trace of the prompt handler for a request with the given `content`
body field (`none` for a missing field).  JavaScript `!content` is true for
both a missing field and the empty string. -/
def promptRequestTrace (id : String) (content : Option String) : List HandlerAction :=
  match content with
  | none => [HandlerAction.respond 400]
  | some c =>
    if c = "" then [HandlerAction.respond 400]
    else
      [HandlerAction.sseHeaders, HandlerAction.registerCloseHandler,
       HandlerAction.subscribe, HandlerAction.sendPrompt id c,
       HandlerAction.armSafetyTimer]

/-!
Router handlers (`GET /api/sessions`, `GET /api/sessions/:id/messages`).
Each awaits an upstream JSON result (or a thrown error) and answers
`res.json(Array.isArray(x) ? x : [])`, or `res.json([])` in the `catch`.
`res.json` without `res.status` answers with HTTP status 200.
-/

/-- A JSON value, as far as these handlers inspect it. -/
inductive JsonVal where
  | null
  | bool (b : Bool)
  | num (n : Int)
  | str (s : String)
  | arr (xs : List JsonVal)

/-- `Array.isArray`. -/
def isArray : JsonVal → Bool
  | .arr _ => true
  | _ => false

/-- `GET /api/sessions`: result of `opencodeAPI("/session")` (`Except.error`
when the call throws) to `(status, body)`. -/
def listSessionsHandler (upstream : Except String JsonVal) : Nat × JsonVal :=
  match upstream with
  | .error _ => (200, JsonVal.arr [])
  | .ok v => (200, if isArray v then v else JsonVal.arr [])

/-- `GET /api/sessions/:id/messages`: result of
`opencodeAPI("/session/" + id + "/message")` to `(status, body)`. -/
def getMessagesHandler (upstream : Except String JsonVal) : Nat × JsonVal :=
  match upstream with
  | .error _ => (200, JsonVal.arr [])
  | .ok v => (200, if isArray v then v else JsonVal.arr [])

/-!
`GET /api/files/:category/:filename` — the download handler.
-/

def UPLOAD_DIR : String := "/workspace/uploads"
def OUTPUT_DIR : String := "/workspace/outputs"

/-- Result of the download handler. -/
inductive FileResult where
  /-- `res.status(status).json({ error: ... })`. -/
  | jsonError (status : Nat)
  /-- `res.status(404).json({ error: "File not found" })`. -/
  | notFound
  /-- `res.download(path)`. -/
  | download (path : String)
deriving DecidableEq, Repr

/-- Does `sub` occur as a contiguous run inside `l`? -/
def subOccurs (sub : List Char) : List Char → Bool
  | [] => sub.isEmpty
  | c :: rest => sub.isPrefixOf (c :: rest) || subOccurs sub rest

/-- Substring test (`String.includes` of JavaScript), on the character
lists of the strings. -/
def hasSub (s sub : String) : Bool :=
  subOccurs sub.data s.data

/-- Prefix test (`String.startsWith` of JavaScript), on the character lists
of the strings. -/
def strStartsWith (s pre : String) : Bool :=
  pre.data.isPrefixOf s.data

/-- `path.resolve(dir, name)` for the names that reach it in the handler:
after the 403 guard, `name` contains no `/`, no `\`, and no `..`, so it is a
single path segment; the segment `"."` collapses to `dir` itself, any other
segment is appended. -/
def resolveIn (dir name : String) : String :=
  if name = "." then dir else dir ++ "/" ++ name

/-- The directory chosen for a (valid) category:
`category === "outputs" ? OUTPUT_DIR : UPLOAD_DIR`. -/
def catDir (category : String) : String :=
  if category = "outputs" then OUTPUT_DIR else UPLOAD_DIR

/-- The download handler.  `fsExists` models `existsSync`; `decodedFilename`
is the filename route parameter after `decodeURIComponent`. -/
def downloadHandler (fsExists : String → Bool)
    (category decodedFilename : String) : FileResult :=
  if category ≠ "uploads" ∧ category ≠ "outputs" then FileResult.jsonError 400
  else if hasSub decodedFilename "/" || hasSub decodedFilename "\\"
      || hasSub decodedFilename ".." then FileResult.jsonError 403
  else if ¬ (strStartsWith (resolveIn (catDir category) decodedFilename)
        (catDir category ++ "/"))
      ∧ resolveIn (catDir category) decodedFilename ≠ catDir category then
    FileResult.jsonError 403
  else if ¬ fsExists (resolveIn (catDir category) decodedFilename) then FileResult.notFound
  else FileResult.download (resolveIn (catDir category) decodedFilename)

/-!
The rate limiter (fixed-window counter per client address) and its sweep.
The map `rateLimitMap` is keyed by client address and each request touches
only its own key, so we model the evolution of one key's entry.
-/

def RATE_LIMIT_WINDOW_MS : Nat := 60 * 1000
def RATE_LIMIT_MAX_REQUESTS : Nat := 60

/-- One entry of `rateLimitMap`. -/
structure RLEntry where
  windowStart : Nat
  count : Nat
deriving DecidableEq, Repr

/-- The `rateLimit` middleware for one key: given the key's current entry
(`none` when absent) and `Date.now()`, returns whether the request is passed
to the route handlers (`next()`; `false` means the 429 response) and the
updated entry.  Note the code increments `entry.count` before the limit
check, so rejected requests also bump the count. -/
def rateLimit (entry : Option RLEntry) (now : Nat) : Bool × RLEntry :=
  match entry with
  | none => (true, { windowStart := now, count := 1 })
  | some e =>
    if now - e.windowStart > RATE_LIMIT_WINDOW_MS then
      (true, { windowStart := now, count := 1 })
    else
      let c := e.count + 1
      (decide (c ≤ RATE_LIMIT_MAX_REQUESTS), { windowStart := e.windowStart, count := c })

/-- Decisions of the middleware for a sequence of request times on one key. -/
def runRL (entry : Option RLEntry) : List Nat → List Bool
  | [] => []
  | t :: ts =>
    let r := rateLimit entry t
    r.1 :: runRL (some r.2) ts

/-- The periodic sweep: delete entries with
`now - entry.windowStart > RATE_LIMIT_WINDOW_MS * 2`. -/
def sweep (now : Nat) (entries : List (String × RLEntry)) : List (String × RLEntry) :=
  entries.filter (fun kv => ¬ (now - kv.2.windowStart > RATE_LIMIT_WINDOW_MS * 2))

/-!
Helper lemmas about the relay state machine.
-/

theorem cleanup_log (s : RelayState) : (cleanup s).log = s.log := by
  unfold cleanup; split <;> rfl

theorem cleanup_idleTimes (s : RelayState) : (cleanup s).idleTimes = s.idleTimes := by
  unfold cleanup; split <;> rfl

theorem cleanup_pendingIdle (s : RelayState) : (cleanup s).pendingIdle = s.pendingIdle := by
  unfold cleanup; split <;> rfl

theorem cleanup_finished (s : RelayState) : (cleanup s).finished = true := by
  unfold cleanup; split <;> simp_all

theorem wtc_log (now : Nat) (o : Output) (s : RelayState) :
    (writeTerminalAndClose now o s).log = s.log ++ [(now, o), (now, Output.close)] := by
  show (cleanup { s with log := s.log ++ [(now, o)] }).log ++ [(now, Output.close)]
      = s.log ++ [(now, o), (now, Output.close)]
  rw [cleanup_log]
  simp

theorem wtc_idleTimes (now : Nat) (o : Output) (s : RelayState) :
    (writeTerminalAndClose now o s).idleTimes = s.idleTimes := by
  show (cleanup { s with log := s.log ++ [(now, o)] }).idleTimes = s.idleTimes
  rw [cleanup_idleTimes]

theorem wtc_pendingIdle (now : Nat) (o : Output) (s : RelayState) :
    (writeTerminalAndClose now o s).pendingIdle = s.pendingIdle := by
  show (cleanup { s with log := s.log ++ [(now, o)] }).pendingIdle = s.pendingIdle
  rw [cleanup_pendingIdle]

theorem wtc_finished (now : Nat) (o : Output) (s : RelayState) :
    (writeTerminalAndClose now o s).finished = true := by
  show (cleanup { s with log := s.log ++ [(now, o)] }).finished = true
  rw [cleanup_finished]

/-- Once `finished` is true, no task writes anything, re-runs a cleanup side
effect, resets the flag, or records a new idle arrival; only the bookkeeping
of an expired grace timer (`pendingIdle`) can shrink. -/
theorem step_frozen (now : Nat) (s : RelayState) (tg : Trigger)
    (h : s.finished = true) :
    (step now s tg).finished = true
    ∧ (step now s tg).log = s.log
    ∧ (step now s tg).esCloseCount = s.esCloseCount
    ∧ (step now s tg).clearCount = s.clearCount
    ∧ (step now s tg).idleTimes = s.idleTimes
    ∧ ∀ d ∈ (step now s tg).pendingIdle, d ∈ s.pendingIdle := by
  cases tg with
  | message e =>
    cases e with
    | none => simp [step, h]
    | some ev => simp [step, h]
  | esError => simp [step, h]
  | promptOk => simp [step, h]
  | promptErr msg => simp [step, h]
  | safetyFire => simp [step, h]
  | idleFire d =>
    have he : step now s (Trigger.idleFire d)
        = { s with pendingIdle := s.pendingIdle.erase d } := by
      simp [step, h]
    rw [he]
    exact ⟨h, rfl, rfl, rfl, rfl, fun d' hd' => List.mem_of_mem_erase hd'⟩
  | clientClose => simp [step, cleanup, h]

/-- `runFrom` over a concatenation of traces. -/
theorem runFrom_append (s : RelayState) (a b : List (Nat × Trigger)) :
    runFrom s (a ++ b) = runFrom (runFrom s a) b := by
  induction a generalizing s with
  | nil => rfl
  | cons hd tl ih => cases hd with | mk t tg => simp [runFrom, ih]

/-- Once `finished` is true, a whole subsequent trace leaves the write log,
both cleanup counters and the idle arrivals unchanged, and the flag stays
true. -/
theorem runFrom_frozen (tr : List (Nat × Trigger)) (s : RelayState)
    (h : s.finished = true) :
    (runFrom s tr).finished = true
    ∧ (runFrom s tr).log = s.log
    ∧ (runFrom s tr).esCloseCount = s.esCloseCount
    ∧ (runFrom s tr).clearCount = s.clearCount
    ∧ (runFrom s tr).idleTimes = s.idleTimes := by
  induction tr generalizing s with
  | nil => exact ⟨h, rfl, rfl, rfl, rfl⟩
  | cons hd tl ih =>
    cases hd with
    | mk t tg =>
      have hs := step_frozen t s tg h
      have htl := ih (step t s tg) hs.1
      exact ⟨htl.1, htl.2.1.trans hs.2.1, htl.2.2.1.trans hs.2.2.1,
        htl.2.2.2.1.trans hs.2.2.2.1, htl.2.2.2.2.trans hs.2.2.2.2.1⟩

theorem terminalCount_append (l l' : List (Nat × Output)) :
    terminalCount (l ++ l') = terminalCount l + terminalCount l' := by
  simp [terminalCount, List.filter_append]

/-- The `finished`-gated discipline: a task never raises the number of
terminal writes above one, and while `finished` is false no terminal has been
written. -/
def relayInv (s : RelayState) : Prop :=
  terminalCount s.log ≤ 1 ∧ (s.finished = false → terminalCount s.log = 0)

theorem terminalCount_event_single (now : Nat) (e : UpEvent) :
    terminalCount [(now, Output.event e)] = 0 := rfl

theorem isTerminal_close : isTerminal Output.close = false := rfl

theorem terminalCount_term_close (now : Nat) (o : Output) (h : isTerminal o = true) :
    terminalCount [(now, o), (now, Output.close)] = 1 := by
  simp [terminalCount, List.filter_cons, h, isTerminal_close]

/-- With `finished` still false, a task either leaves the log alone, forwards
one upstream event, or writes one terminal signal followed by the stream
close (and then `finished` is set). -/
theorem step_log_cases (now : Nat) (s : RelayState) (tg : Trigger)
    (hf : s.finished = false) :
    (step now s tg).log = s.log
    ∨ (∃ e, (step now s tg).log = s.log ++ [(now, Output.event e)])
    ∨ (∃ o, isTerminal o = true
        ∧ (step now s tg).log = s.log ++ [(now, o), (now, Output.close)]
        ∧ (step now s tg).finished = true) := by
  cases tg with
  | message e =>
    cases e with
    | none => exact Or.inl rfl
    | some ev =>
      by_cases hd : sessionFilterDrop s.id ev = true
      · exact Or.inl (by simp [step, hf, hd])
      · have hd' : sessionFilterDrop s.id ev = false := by
          cases hdd : sessionFilterDrop s.id ev
          · rfl
          · exact absurd hdd hd
        refine Or.inr (Or.inl ⟨ev, ?_⟩)
        by_cases ht : ev.type = "session.idle" <;> simp [step, hf, hd', ht]
  | esError =>
    refine Or.inr (Or.inr ⟨Output.error "SSE connection lost", rfl, ?_, ?_⟩) <;>
      simp [step, hf, wtc_log, wtc_finished]
  | promptOk => exact Or.inl rfl
  | promptErr msg =>
    refine Or.inr (Or.inr ⟨Output.error msg, rfl, ?_, ?_⟩) <;>
      simp [step, hf, wtc_log, wtc_finished]
  | safetyFire =>
    refine Or.inr (Or.inr ⟨Output.timeout "Response timed out after 5 minutes", rfl, ?_, ?_⟩) <;>
      simp [step, hf, wtc_log, wtc_finished]
  | idleFire d =>
    refine Or.inr (Or.inr ⟨Output.done, rfl, ?_, ?_⟩) <;>
      simp [step, hf, wtc_log, wtc_finished]
  | clientClose => exact Or.inl (cleanup_log s)

theorem step_relayInv (now : Nat) (s : RelayState) (tg : Trigger)
    (hI : relayInv s) : relayInv (step now s tg) := by
  by_cases hf : s.finished = true
  · have h := step_frozen now s tg hf
    refine ⟨h.2.1 ▸ hI.1, fun hc => ?_⟩
    rw [h.1] at hc
    exact absurd hc (by simp)
  · simp only [Bool.not_eq_true] at hf
    have h0 : terminalCount s.log = 0 := hI.2 hf
    rcases step_log_cases now s tg hf with hlog | ⟨e, hlog⟩ | ⟨o, ho, hlog, hfin⟩
    · exact ⟨hlog ▸ hI.1, fun _ => hlog ▸ h0⟩
    · constructor
      · rw [hlog, terminalCount_append, h0, terminalCount_event_single]
        omega
      · intro _
        rw [hlog, terminalCount_append, h0, terminalCount_event_single]
    · constructor
      · rw [hlog, terminalCount_append, h0, terminalCount_term_close now o ho]
      · intro hc
        rw [hfin] at hc
        exact absurd hc (by simp)

theorem runFrom_relayInv (tr : List (Nat × Trigger)) (s : RelayState)
    (hI : relayInv s) : relayInv (runFrom s tr) := by
  induction tr generalizing s with
  | nil => exact hI
  | cons hd tl ih =>
    cases hd with
    | mk t tg => exact ih (step t s tg) (step_relayInv t s tg hI)

/-- While `finished` is false, neither cleanup side effect has run and the
subscription is still open. -/
def resourceInv (s : RelayState) : Prop :=
  s.finished = false → s.esOpen = true ∧ s.esCloseCount = 0 ∧ s.clearCount = 0

theorem step_resourceInv (now : Nat) (s : RelayState) (tg : Trigger)
    (hI : resourceInv s) : resourceInv (step now s tg) := by
  intro hfin
  by_cases hf : s.finished = true
  · exact absurd ((step_frozen now s tg hf).1) (by rw [hfin]; simp)
  · have hf' : s.finished = false := by
      cases hfin' : s.finished
      · rfl
      · exact absurd hfin' hf
    have hr := hI hf'
    cases tg with
    | message e =>
      cases e with
      | none => simpa [step] using hr
      | some ev =>
        by_cases hd : sessionFilterDrop s.id ev = true
        · simpa [step, hf', hd] using hr
        · have hd' : sessionFilterDrop s.id ev = false := by
            cases hdd : sessionFilterDrop s.id ev
            · rfl
            · exact absurd hdd hd
          by_cases ht : ev.type = "session.idle" <;>
            simpa [step, hf', hd', ht] using hr
    | esError =>
      exact absurd hfin (by simp [step, hf', wtc_finished])
    | promptOk => simpa [step] using hr
    | promptErr msg =>
      exact absurd hfin (by simp [step, hf', wtc_finished])
    | safetyFire =>
      exact absurd hfin (by simp [step, hf', wtc_finished])
    | idleFire d =>
      exact absurd hfin (by simp [step, hf', wtc_finished])
    | clientClose =>
      exact absurd hfin (by rw [show (step now s Trigger.clientClose).finished = true from
        cleanup_finished s]; simp)

theorem runFrom_resourceInv (tr : List (Nat × Trigger)) (s : RelayState)
    (hI : resourceInv s) : resourceInv (runFrom s tr) := by
  induction tr generalizing s with
  | nil => exact hI
  | cons hd tl ih =>
    cases hd with
    | mk t tg => exact ih (step t s tg) (step_resourceInv t s tg hI)

theorem noDone_doneThenClose (l : List (Nat × Output)) (h : noDone l) :
    doneThenClose l = true := by
  induction l with
  | nil => rfl
  | cons hd tl ih =>
    have hhd : hd.2 ≠ Output.done := h hd (List.mem_cons_self _ _)
    have htl : noDone tl := fun p hp => h p (List.mem_cons_of_mem _ hp)
    cases hd with
    | mk a o =>
      cases o with
      | done => exact absurd rfl hhd
      | event e => simpa [doneThenClose] using ih htl
      | error m => simpa [doneThenClose] using ih htl
      | timeout m => simpa [doneThenClose] using ih htl
      | close => simpa [doneThenClose] using ih htl

theorem doneThenClose_append_done_close (l : List (Nat × Output)) (a b : Nat)
    (h : noDone l) :
    doneThenClose (l ++ [(a, Output.done), (b, Output.close)]) = true := by
  induction l with
  | nil => rfl
  | cons hd tl ih =>
    have hhd : hd.2 ≠ Output.done := h hd (List.mem_cons_self _ _)
    have htl : noDone tl := fun p hp => h p (List.mem_cons_of_mem _ hp)
    cases hd with
    | mk c o =>
      cases o with
      | done => exact absurd rfl hhd
      | event e => simpa [doneThenClose] using ih htl
      | error m => simpa [doneThenClose] using ih htl
      | timeout m => simpa [doneThenClose] using ih htl
      | close => simpa [doneThenClose] using ih htl

theorem noDone_append (l : List (Nat × Output)) (l' : List (Nat × Output))
    (h : noDone l) (h' : noDone l') : noDone (l ++ l') := by
  intro p hp
  rcases List.mem_append.mp hp with hm | hm
  · exact h p hm
  · exact h' p hm

/-- Timing invariant: every scheduled grace deadline is some idle-arrival
time plus `GRACE`; every `done` was written no earlier than some idle arrival
plus `GRACE`; every `done` is immediately followed by the stream close; and
before `finished`, no `done` has been written. -/
def timedInv (s : RelayState) : Prop :=
  (∀ d ∈ s.pendingIdle, ∃ T ∈ s.idleTimes, d = T + GRACE)
  ∧ (∀ t : Nat, (t, Output.done) ∈ s.log → ∃ T ∈ s.idleTimes, T + GRACE ≤ t)
  ∧ doneThenClose s.log = true
  ∧ (s.finished = false → noDone s.log)

theorem step_timedInv (now : Nat) (s : RelayState) (tg : Trigger)
    (hside : ∀ d, tg = Trigger.idleFire d → d ∈ s.pendingIdle ∧ d ≤ now)
    (hI : timedInv s) : timedInv (step now s tg) := by
  obtain ⟨hP, hD, hC, hN⟩ := hI
  by_cases hf : s.finished = true
  · have h := step_frozen now s tg hf
    refine ⟨?_, ?_, ?_, ?_⟩
    · intro d hd
      exact h.2.2.2.2.1 ▸ hP d (h.2.2.2.2.2 d hd)
    · intro t ht
      rw [h.2.1] at ht
      exact h.2.2.2.2.1 ▸ hD t ht
    · rw [h.2.1]; exact hC
    · intro hc
      rw [h.1] at hc
      exact absurd hc (by simp)
  · simp only [Bool.not_eq_true] at hf
    have hN0 : noDone s.log := hN hf
    cases tg with
    | message e =>
      cases e with
      | none => exact ⟨hP, hD, hC, fun _ => hN0⟩
      | some ev =>
        by_cases hd : sessionFilterDrop s.id ev = true
        · have hs : step now s (Trigger.message (some ev)) = s := by simp [step, hf, hd]
          rw [hs]
          exact ⟨hP, hD, hC, hN⟩
        · have hd' : sessionFilterDrop s.id ev = false := by
            cases hdd : sessionFilterDrop s.id ev
            · rfl
            · exact absurd hdd hd
          have hNe : noDone (s.log ++ [(now, Output.event ev)]) :=
            noDone_append _ _ hN0 (by intro p hp; simp at hp; subst hp; simp)
          by_cases ht : ev.type = "session.idle"
          · have hs : step now s (Trigger.message (some ev))
                = { s with log := s.log ++ [(now, Output.event ev)]
                           pendingIdle := s.pendingIdle ++ [now + GRACE]
                           idleTimes := s.idleTimes ++ [now] } := by
              simp [step, hf, hd', ht]
            rw [hs]
            refine ⟨?_, ?_, ?_, ?_⟩
            · intro d hdm
              simp only [List.mem_append, List.mem_singleton] at hdm
              rcases hdm with hdm | hdm
              · obtain ⟨T, hT, hTe⟩ := hP d hdm
                exact ⟨T, List.mem_append.mpr (Or.inl hT), hTe⟩
              · exact ⟨now, List.mem_append.mpr (Or.inr (List.mem_singleton.mpr rfl)), hdm⟩
            · intro t htm
              simp only [List.mem_append, List.mem_singleton] at htm
              rcases htm with htm | htm
              · obtain ⟨T, hT, hTe⟩ := hD t htm
                exact ⟨T, List.mem_append.mpr (Or.inl hT), hTe⟩
              · exact absurd htm (by simp)
            · exact noDone_doneThenClose _ hNe
            · intro _; exact hNe
          · have hs : step now s (Trigger.message (some ev))
                = { s with log := s.log ++ [(now, Output.event ev)] } := by
              simp [step, hf, hd', ht]
            rw [hs]
            refine ⟨hP, ?_, noDone_doneThenClose _ hNe, fun _ => hNe⟩
            intro t htm
            simp only [List.mem_append, List.mem_singleton] at htm
            rcases htm with htm | htm
            · exact hD t htm
            · exact absurd htm (by simp)
    | esError =>
      refine ⟨?_, ?_, ?_, ?_⟩ <;>
        simp only [step, hf, Bool.false_eq_true, if_false, wtc_log, wtc_pendingIdle,
          wtc_idleTimes, wtc_finished]
      · exact hP
      · intro t htm
        rcases List.mem_append.mp htm with htm | htm
        · exact hD t htm
        · simp at htm
      · exact noDone_doneThenClose _
          (noDone_append _ _ hN0 (by intro p hp; simp at hp; rcases hp with hp | hp <;> simp [hp]))
      · intro hc; exact absurd hc (by simp)
    | promptOk => exact ⟨hP, hD, hC, fun _ => hN0⟩
    | promptErr msg =>
      refine ⟨?_, ?_, ?_, ?_⟩ <;>
        simp only [step, hf, Bool.false_eq_true, if_false, wtc_log, wtc_pendingIdle,
          wtc_idleTimes, wtc_finished]
      · exact hP
      · intro t htm
        rcases List.mem_append.mp htm with htm | htm
        · exact hD t htm
        · simp at htm
      · exact noDone_doneThenClose _
          (noDone_append _ _ hN0 (by intro p hp; simp at hp; rcases hp with hp | hp <;> simp [hp]))
      · intro hc; exact absurd hc (by simp)
    | safetyFire =>
      refine ⟨?_, ?_, ?_, ?_⟩ <;>
        simp only [step, hf, Bool.false_eq_true, if_false, wtc_log, wtc_pendingIdle,
          wtc_idleTimes, wtc_finished]
      · exact hP
      · intro t htm
        rcases List.mem_append.mp htm with htm | htm
        · exact hD t htm
        · simp at htm
      · exact noDone_doneThenClose _
          (noDone_append _ _ hN0 (by intro p hp; simp at hp; rcases hp with hp | hp <;> simp [hp]))
      · intro hc; exact absurd hc (by simp)
    | idleFire d =>
      obtain ⟨hdm, hdle⟩ := hside d rfl
      obtain ⟨T0, hT0, hT0e⟩ := hP d hdm
      have hs : step now s (Trigger.idleFire d)
          = writeTerminalAndClose now Output.done { s with pendingIdle := s.pendingIdle.erase d } := by
        simp [step, hf]
      rw [hs]
      refine ⟨?_, ?_, ?_, ?_⟩ <;>
        simp only [wtc_log, wtc_pendingIdle, wtc_idleTimes, wtc_finished]
      · intro d' hd'
        exact hP d' (List.mem_of_mem_erase hd')
      · intro t htm
        rcases List.mem_append.mp htm with htm | htm
        · exact hD t htm
        · simp only [List.mem_cons, List.mem_singleton] at htm
          rcases htm with htm | htm
          · have hteq : t = now := by
              have := Prod.mk.injEq t Output.done now Output.done ▸ htm
              exact (Prod.mk.injEq .. ▸ htm : _ ∧ _).1
            exact ⟨T0, hT0, by omega⟩
          · exact absurd htm (by simp)
      · exact doneThenClose_append_done_close _ now now hN0
      · intro hc; exact absurd hc (by simp)
    | clientClose =>
      have hs := cleanup_finished s
      refine ⟨?_, ?_, ?_, ?_⟩
      · intro d hdm
        rw [show (step now s Trigger.clientClose).pendingIdle = s.pendingIdle from
          cleanup_pendingIdle s] at hdm
        exact (cleanup_idleTimes s) ▸ hP d hdm
      · intro t htm
        rw [show (step now s Trigger.clientClose).log = s.log from cleanup_log s] at htm
        exact (cleanup_idleTimes s) ▸ hD t htm
      · rw [show (step now s Trigger.clientClose).log = s.log from cleanup_log s]
        exact hC
      · intro hc
        rw [show (step now s Trigger.clientClose).finished = true from hs] at hc
        exact absurd hc (by simp)

theorem runFrom_timedInv (tr : List (Nat × Trigger)) (s : RelayState)
    (hv : validFrom s tr = true) (hI : timedInv s) : timedInv (runFrom s tr) := by
  induction tr generalizing s with
  | nil => exact hI
  | cons hd tl ih =>
    cases hd with
    | mk t tg =>
      simp only [validFrom, Bool.and_eq_true] at hv
      refine ih (step t s tg) hv.2 (step_timedInv t s tg ?_ hI)
      intro d hdg
      subst hdg
      have h1 := hv.1
      simp only [Bool.and_eq_true, decide_eq_true_eq] at h1
      exact h1

theorem relayInit_relayInv (id : String) : relayInv (relayInit id) :=
  ⟨by simp [relayInit, terminalCount], fun _ => rfl⟩

theorem relayInit_resourceInv (id : String) : resourceInv (relayInit id) :=
  fun _ => ⟨rfl, rfl, rfl⟩

theorem relayInit_timedInv (id : String) : timedInv (relayInit id) :=
  ⟨fun d hd => absurd hd (List.not_mem_nil d),
   fun t ht => absurd ht (List.not_mem_nil (t, Output.done)),
   rfl,
   fun _ p hp => absurd hp (List.not_mem_nil p)⟩

/-- Within one window (all request times at most `windowStart + window`), the
`i`-th subsequent request on an entry with count `c` is admitted exactly when
the incremented count stays within the limit. -/
theorem runRL_in_window (t0 : Nat) (ts : List Nat) (c : Nat)
    (h : ∀ t ∈ ts, t - t0 ≤ RATE_LIMIT_WINDOW_MS) :
    ∀ i, i < ts.length →
      (runRL (some { windowStart := t0, count := c }) ts)[i]?
        = some (decide (c + i + 1 ≤ RATE_LIMIT_MAX_REQUESTS)) := by
  induction ts generalizing c with
  | nil => intro i hi; simp at hi
  | cons t rest ih =>
    intro i hi
    have hin : ¬ (t - t0 > RATE_LIMIT_WINDOW_MS) := by
      have := h t (List.mem_cons_self t rest)
      omega
    have hstep : rateLimit (some { windowStart := t0, count := c }) t
        = (decide (c + 1 ≤ RATE_LIMIT_MAX_REQUESTS),
           { windowStart := t0, count := c + 1 }) := by
      simp [rateLimit, hin]
    cases i with
    | zero => simp [runRL, hstep]
    | succ n =>
      have hrest : ∀ u ∈ rest, u - t0 ≤ RATE_LIMIT_WINDOW_MS :=
        fun u hu => h u (List.mem_cons_of_mem t hu)
      have hih := ih (c + 1) hrest n (by simpa using hi)
      have harith : c + 1 + n + 1 = c + (n + 1) + 1 := by omega
      simp only [harith] at hih
      simp only [runRL, hstep]
      rw [List.getElem?_cons_succ]
      exact hih

/-!
The claims.
-/

/-- Claim C1: for every relay session, at most one terminal signal (`done`,
`error`, or `timeout`) is ever written to the client stream, whatever tasks
fire in whatever order; and once `finished` is true it stays true (so the
flag transitions false to true at most once per session) and no further write,
`eventSource.close()` or `clearTimeout` side effect occurs. -/
theorem relay_single_terminal (id : String) (tr : List (Nat × Trigger)) :
    terminalCount (runRelay id tr).log ≤ 1
    ∧ (∀ pre post, tr = pre ++ post → (runRelay id pre).finished = true →
        (runRelay id tr).finished = true
        ∧ (runRelay id tr).log = (runRelay id pre).log
        ∧ (runRelay id tr).esCloseCount = (runRelay id pre).esCloseCount
        ∧ (runRelay id tr).clearCount = (runRelay id pre).clearCount) := by
  constructor
  · exact (runFrom_relayInv tr (relayInit id) (relayInit_relayInv id)).1
  · intro pre post hsplit hfin
    have hrun : runRelay id tr = runFrom (runRelay id pre) post := by
      rw [hsplit, runRelay, runFrom_append]
      rfl
    have h := runFrom_frozen post (runRelay id pre) hfin
    rw [hrun]
    exact ⟨h.1, h.2.1, h.2.2.1, h.2.2.2.1⟩

/-- Witness for C1 at a concrete trace: an upstream error at t=0 followed by
a client close at t=1 writes at most one terminal, and nothing after the
error task changes the log. -/
theorem relay_single_terminal_w :
    terminalCount (runRelay "abc" [(0, Trigger.esError), (1, Trigger.clientClose)]).log ≤ 1
    ∧ (runRelay "abc" [(0, Trigger.esError), (1, Trigger.clientClose)]).log
        = (runRelay "abc" [(0, Trigger.esError)]).log := by
  refine ⟨(relay_single_terminal "abc" [(0, Trigger.esError), (1, Trigger.clientClose)]).1, ?_⟩
  exact ((relay_single_terminal "abc" [(0, Trigger.esError), (1, Trigger.clientClose)]).2
    [(0, Trigger.esError)] [(1, Trigger.clientClose)] rfl (by decide)).2.1

/-- Claim C2: in the prompt handler, the subscription to the upstream /event
feed is created strictly before the prompt is submitted upstream: wherever
`sendPrompt` occurs in the handler trace, `subscribe` occurs at an earlier
position. -/
theorem subscribe_before_prompt (id : String) (content : Option String)
    (sid c : String) (i : Nat)
    (h : (promptRequestTrace id content)[i]? = some (HandlerAction.sendPrompt sid c)) :
    ∃ j, j < i ∧ (promptRequestTrace id content)[j]? = some HandlerAction.subscribe := by
  cases content with
  | none =>
    cases i with
    | zero => simp [promptRequestTrace] at h
    | succ n => simp [promptRequestTrace] at h
  | some c' =>
    by_cases hc : c' = ""
    · subst hc
      cases i with
      | zero => simp [promptRequestTrace] at h
      | succ n => simp [promptRequestTrace] at h
    · match i with
      | 0 => simp [promptRequestTrace, hc] at h
      | 1 => simp [promptRequestTrace, hc] at h
      | 2 => simp [promptRequestTrace, hc] at h
      | 3 => exact ⟨2, by omega, by simp [promptRequestTrace, hc]⟩
      | 4 => simp [promptRequestTrace, hc] at h
      | n + 5 => simp [promptRequestTrace, hc] at h

/-- Witness for C2 at a concrete request. -/
theorem subscribe_before_prompt_w :
    ∃ j, j < 3 ∧ (promptRequestTrace "abc" (some "hello"))[j]? = some HandlerAction.subscribe :=
  subscribe_before_prompt "abc" (some "hello") "abc" "hello" 3 (by rfl)

/-- Claim C3 counterexample: an event whose `properties.sessionID` is present
(`some ""`) and differs from the relay session `"abc"` is nevertheless
forwarded to the client, because the filter tests JavaScript truthiness and
the empty string is falsy.  The claim says such an event is never written. -/
theorem session_filter_cex :
    (step 0 (relayInit "abc")
        (Trigger.message (some { type := "message.part.updated", sessionID := some "" }))).log
      = [(0, Output.event { type := "message.part.updated", sessionID := some "" })]
    ∧ (some "" : Option String) ≠ none
    ∧ "" ≠ "abc" := by
  refine ⟨rfl, by simp, by simp⟩

/-- Claim C3 (amended): while not finished, an event whose `sessionID` is
present, non-empty and different from the relay session is never written; an
event with absent `sessionID` is forwarded; and (the boundary the original
claim misses) an event whose `sessionID` is present but empty is also
forwarded. -/
theorem session_filter_amended (s : RelayState) (now : Nat) (e : UpEvent)
    (hf : s.finished = false) :
    (∀ sid, e.sessionID = some sid → sid ≠ "" → sid ≠ s.id →
        step now s (Trigger.message (some e)) = s)
    ∧ (e.sessionID = none →
        (step now s (Trigger.message (some e))).log = s.log ++ [(now, Output.event e)])
    ∧ (e.sessionID = some "" →
        (step now s (Trigger.message (some e))).log = s.log ++ [(now, Output.event e)]) := by
  refine ⟨?_, ?_, ?_⟩
  · intro sid hsid h1 h2
    have hd : sessionFilterDrop s.id e = true := by
      simp [sessionFilterDrop, hsid, h1, h2]
    simp [step, hf, hd]
  · intro hsid
    have hd : sessionFilterDrop s.id e = false := by
      simp [sessionFilterDrop, hsid]
    by_cases ht : e.type = "session.idle" <;> simp [step, hf, hd, ht]
  · intro hsid
    have hd : sessionFilterDrop s.id e = false := by
      simp [sessionFilterDrop, hsid]
    by_cases ht : e.type = "session.idle" <;> simp [step, hf, hd, ht]

/-- Witness for the amended C3 at concrete states and events. -/
theorem session_filter_amended_w :
    step 7 (relayInit "abc")
        (Trigger.message (some { type := "x", sessionID := some "other" }))
      = relayInit "abc"
    ∧ (step 7 (relayInit "abc") (Trigger.message (some { type := "x", sessionID := none }))).log
        = (relayInit "abc").log ++ [(7, Output.event { type := "x", sessionID := none })] := by
  refine ⟨?_, ?_⟩
  · exact (session_filter_amended (relayInit "abc") 7
      { type := "x", sessionID := some "other" } rfl).1 "other" rfl (by decide) (by decide)
  · exact (session_filter_amended (relayInit "abc") 7
      { type := "x", sessionID := none } rfl).2.1 rfl

/-- Claim C4: in any schedule respecting the timer semantics, every `done`
signal is written no earlier than some forwarded idle-completion arrival time
plus the fixed grace interval (300 ms), and the stream close (`res.end`)
follows immediately after the `done` write. -/
theorem prompt_done_after_grace (id : String) (tr : List (Nat × Trigger))
    (hv : validFrom (relayInit id) tr = true) :
    (∀ t : Nat, (t, Output.done) ∈ (runRelay id tr).log →
        ∃ T ∈ (runRelay id tr).idleTimes, T + GRACE ≤ t)
    ∧ doneThenClose (runRelay id tr).log = true := by
  have h := runFrom_timedInv tr (relayInit id) hv (relayInit_timedInv id)
  exact ⟨h.2.1, h.2.2.1⟩

/-- Witness for C4: an idle event at t=10 and the grace callback firing at its
deadline t=310 yield a `done` at 310, no earlier than 10 + 300. -/
theorem prompt_done_after_grace_w :
    validFrom (relayInit "abc")
        [(10, Trigger.message (some { type := "session.idle", sessionID := some "abc" })),
         (310, Trigger.idleFire 310)] = true
    ∧ (∃ T ∈ (runRelay "abc"
        [(10, Trigger.message (some { type := "session.idle", sessionID := some "abc" })),
         (310, Trigger.idleFire 310)]).idleTimes, T + GRACE ≤ 310)
    ∧ doneThenClose (runRelay "abc"
        [(10, Trigger.message (some { type := "session.idle", sessionID := some "abc" })),
         (310, Trigger.idleFire 310)]).log = true := by
  refine ⟨by decide, ?_, ?_⟩
  · exact (prompt_done_after_grace "abc"
      [(10, Trigger.message (some { type := "session.idle", sessionID := some "abc" })),
       (310, Trigger.idleFire 310)] (by decide)).1 310 (by decide)
  · exact (prompt_done_after_grace "abc"
      [(10, Trigger.message (some { type := "session.idle", sessionID := some "abc" })),
       (310, Trigger.idleFire 310)] (by decide)).2

/-- Claim C5: a prompt request with missing or empty `content` is answered
with the 400 JSON error alone: no event-stream headers are written and no
upstream call of any kind is made. -/
theorem empty_content_rejected (id : String) (content : Option String)
    (h : content = none ∨ content = some "") :
    promptRequestTrace id content = [HandlerAction.respond 400]
    ∧ HandlerAction.sseHeaders ∉ promptRequestTrace id content
    ∧ HandlerAction.subscribe ∉ promptRequestTrace id content
    ∧ ∀ sid c, HandlerAction.sendPrompt sid c ∉ promptRequestTrace id content := by
  have he : promptRequestTrace id content = [HandlerAction.respond 400] := by
    rcases h with h | h <;> subst h <;> simp [promptRequestTrace]
  refine ⟨he, ?_, ?_, ?_⟩
  · rw [he]; simp
  · rw [he]; simp
  · intro sid c; rw [he]; simp

/-- Witness for C5 at a concrete empty-content request. -/
theorem empty_content_rejected_w :
    promptRequestTrace "abc" (some "") = [HandlerAction.respond 400]
    ∧ HandlerAction.sseHeaders ∉ promptRequestTrace "abc" (some "") :=
  ⟨(empty_content_rejected "abc" (some "") (Or.inr rfl)).1,
   (empty_content_rejected "abc" (some "") (Or.inr rfl)).2.1⟩

/-- Claim C6 counterexample: the client closes at t=0 while the prompt call is
still awaited; `cleanup` runs (closing the subscription) with no timer to
clear; at t=1 the awaited call resolves and arms the safety timer without
re-checking `finished`.  The timer is then never cleared — it survives to its
natural 5-minute expiry (t=400000, a gated no-op) with `clearTimeout` never
invoked — contradicting the claim that the safety timer is cleared within one
scheduler tick of the close event. -/
theorem relay_timer_leak_cex :
    (runRelay "abc"
        [(0, Trigger.clientClose), (1, Trigger.promptOk), (400000, Trigger.safetyFire)]).finished
      = true
    ∧ (runRelay "abc"
        [(0, Trigger.clientClose), (1, Trigger.promptOk), (400000, Trigger.safetyFire)]).timerArmed
      = true
    ∧ (runRelay "abc"
        [(0, Trigger.clientClose), (1, Trigger.promptOk), (400000, Trigger.safetyFire)]).clearCount
      = 0
    ∧ (runRelay "abc"
        [(0, Trigger.clientClose), (1, Trigger.promptOk), (400000, Trigger.safetyFire)]).esCloseCount
      = 1
    ∧ (runRelay "abc"
        [(0, Trigger.clientClose), (1, Trigger.promptOk), (400000, Trigger.safetyFire)]).log
      = [] :=
  ⟨rfl, rfl, rfl, rfl, rfl⟩

/-- Claim C6 (amended): if the client closes before any completion signal,
the close tick closes the upstream subscription exactly once and writes
nothing further, ever; if the safety timer is already armed at that point it
is also cleared in the same tick (exactly once); but if the close is processed
before the prompt call resolves (timer not yet armed), `clearTimeout` is not
invoked in the close tick — a timer armed afterwards stays uncleared. -/
theorem relay_close_releases (id : String) (tr tr2 : List (Nat × Trigger)) (now : Nat)
    (hf : (runRelay id tr).finished = false) :
    (step now (runRelay id tr) Trigger.clientClose).finished = true
    ∧ (step now (runRelay id tr) Trigger.clientClose).log = (runRelay id tr).log
    ∧ (step now (runRelay id tr) Trigger.clientClose).esCloseCount = 1
    ∧ ((runRelay id tr).timerArmed = true →
        (step now (runRelay id tr) Trigger.clientClose).clearCount = 1
        ∧ (step now (runRelay id tr) Trigger.clientClose).timerArmed = false)
    ∧ ((runRelay id tr).timerArmed = false →
        (step now (runRelay id tr) Trigger.clientClose).clearCount = 0)
    ∧ (runFrom (step now (runRelay id tr) Trigger.clientClose) tr2).log = (runRelay id tr).log
    ∧ (runFrom (step now (runRelay id tr) Trigger.clientClose) tr2).esCloseCount = 1
    ∧ (runFrom (step now (runRelay id tr) Trigger.clientClose) tr2).clearCount
        = (step now (runRelay id tr) Trigger.clientClose).clearCount := by
  obtain ⟨ho0, hc00, hcl00⟩ :=
    runFrom_resourceInv tr (relayInit id) (relayInit_resourceInv id) hf
  have ho : (runRelay id tr).esOpen = true := ho0
  have hc0 : (runRelay id tr).esCloseCount = 0 := hc00
  have hcl0 : (runRelay id tr).clearCount = 0 := hcl00
  have hstep : step now (runRelay id tr) Trigger.clientClose = cleanup (runRelay id tr) := rfl
  have hfin := cleanup_finished (runRelay id tr)
  have hlog := cleanup_log (runRelay id tr)
  have hcl : (cleanup (runRelay id tr)).esCloseCount = 1 := by
    simp [cleanup, hf, ho, hc0]
  have hclear : (cleanup (runRelay id tr)).clearCount
      = (if (runRelay id tr).timerArmed then 1 else 0) := by
    simp [cleanup, hf, hcl0]
  have hta : (cleanup (runRelay id tr)).timerArmed = false := by
    simp [cleanup, hf]
  have hfr := runFrom_frozen tr2 (cleanup (runRelay id tr)) hfin
  rw [hstep]
  refine ⟨hfin, hlog, hcl, ?_, ?_, ?_, ?_, ?_⟩
  · intro h1
    exact ⟨by rw [hclear, h1]; rfl, hta⟩
  · intro h0
    rw [hclear, h0]
    rfl
  · rw [hfr.2.1, hlog]
  · rw [hfr.2.2.1, hcl]
  · exact hfr.2.2.2.1

/-- Witness for the amended C6: prompt resolves at t=0 (timer armed), client
closes at t=2 — both resources are released in the close tick and a later
safety-timer expiry at t=5 changes nothing. -/
theorem relay_close_releases_w :
    (step 2 (runRelay "abc" [(0, Trigger.promptOk)]) Trigger.clientClose).finished = true
    ∧ (step 2 (runRelay "abc" [(0, Trigger.promptOk)]) Trigger.clientClose).esCloseCount = 1
    ∧ (step 2 (runRelay "abc" [(0, Trigger.promptOk)]) Trigger.clientClose).clearCount = 1
    ∧ (runFrom (step 2 (runRelay "abc" [(0, Trigger.promptOk)]) Trigger.clientClose)
        [(5, Trigger.safetyFire)]).log
      = (runRelay "abc" [(0, Trigger.promptOk)]).log := by
  have h := relay_close_releases "abc" [(0, Trigger.promptOk)] [(5, Trigger.safetyFire)] 2
    (by decide)
  exact ⟨h.1, h.2.2.1, (h.2.2.2.1 (by decide)).1, h.2.2.2.2.2.1⟩

/-- Claim C7: the two listing endpoints always answer HTTP 200 with a JSON
array — the empty array when the upstream call throws or returns a non-array
value — never a 5xx status. -/
theorem listings_fail_soft (u v : Except String JsonVal) :
    (listSessionsHandler u).1 = 200 ∧ isArray (listSessionsHandler u).2 = true
    ∧ (getMessagesHandler v).1 = 200 ∧ isArray (getMessagesHandler v).2 = true
    ∧ (∀ msg, listSessionsHandler (Except.error msg) = (200, JsonVal.arr []))
    ∧ (∀ msg, getMessagesHandler (Except.error msg) = (200, JsonVal.arr [])) := by
  refine ⟨?_, ?_, ?_, ?_, fun msg => rfl, fun msg => rfl⟩
  · cases u with
    | error e => rfl
    | ok w => rfl
  · cases u with
    | error e => rfl
    | ok w => cases w <;> rfl
  · cases v with
    | error e => rfl
    | ok w => rfl
  · cases v with
    | error e => rfl
    | ok w => cases w <;> rfl

/-- Claim C8 counterexample: the filename `"."` contains no path separator and
no `".."`, so it passes the 403 guards; it resolves to the category directory
itself, which the containment check explicitly admits through its equality
disjunct (`filePath !== resolve(dir)`); with the directory existing (the
server creates it at startup), `res.download` is invoked on a path that is
*not* strictly within the directory. -/
theorem download_dot_cex :
    downloadHandler (fun p => decide (p = "/workspace/uploads")) "uploads" "."
      = FileResult.download "/workspace/uploads"
    ∧ strStartsWith "/workspace/uploads" ("/workspace/uploads" ++ "/") = false := by
  exact ⟨by decide, by decide⟩

/-- Claim C8 (amended): an unknown category gets the 400 error and no file;
for a valid category, a (decoded) filename containing a path separator or the
traversal sequence `".."` gets 403; and whenever a file is served, the served
path either lies strictly within the chosen category directory or — the case
the original claim excludes, reachable by the filename `"."` — is the
category directory itself. -/
theorem download_guards (fsExists : String → Bool) (cat fn : String) :
    (cat ≠ "uploads" → cat ≠ "outputs" →
        downloadHandler fsExists cat fn = FileResult.jsonError 400)
    ∧ ((cat = "uploads" ∨ cat = "outputs") →
        (hasSub fn "/" = true ∨ hasSub fn "\\" = true ∨ hasSub fn ".." = true) →
        downloadHandler fsExists cat fn = FileResult.jsonError 403)
    ∧ (∀ p, downloadHandler fsExists cat fn = FileResult.download p →
        strStartsWith p (catDir cat ++ "/") = true ∨ p = catDir cat) := by
  refine ⟨?_, ?_, ?_⟩
  · intro h1 h2
    unfold downloadHandler
    rw [if_pos ⟨h1, h2⟩]
  · intro hcat hsub
    have hcat' : ¬ (cat ≠ "uploads" ∧ cat ≠ "outputs") := by
      rcases hcat with h | h <;> simp [h]
    have hsub' : (hasSub fn "/" || hasSub fn "\\" || hasSub fn "..") = true := by
      rcases hsub with h | h | h <;> simp [h]
    unfold downloadHandler
    rw [if_neg hcat', if_pos hsub']
  · intro p hp
    unfold downloadHandler at hp
    by_cases h1 : cat ≠ "uploads" ∧ cat ≠ "outputs"
    · rw [if_pos h1] at hp
      exact absurd hp (by simp)
    · rw [if_neg h1] at hp
      by_cases h2 : (hasSub fn "/" || hasSub fn "\\" || hasSub fn "..") = true
      · rw [if_pos h2] at hp
        exact absurd hp (by simp)
      · rw [if_neg h2] at hp
        by_cases h3 : ¬ (strStartsWith (resolveIn (catDir cat) fn) (catDir cat ++ "/"))
            ∧ resolveIn (catDir cat) fn ≠ catDir cat
        · rw [if_pos h3] at hp
          exact absurd hp (by simp)
        · rw [if_neg h3] at hp
          by_cases h4 : ¬ fsExists (resolveIn (catDir cat) fn)
          · rw [if_pos h4] at hp
            exact absurd hp (by simp)
          · rw [if_neg h4] at hp
            rw [FileResult.download.injEq] at hp
            subst hp
            by_cases h5 : strStartsWith (resolveIn (catDir cat) fn) (catDir cat ++ "/") = true
            · exact Or.inl h5
            · rcases not_and_or.mp h3 with h | h
              · exact absurd (not_not.mp h) h5
              · exact Or.inr (not_not.mp h)

/-- Witness for the amended C8 at concrete requests. -/
theorem download_guards_w :
    downloadHandler (fun _ => true) "secrets" "x" = FileResult.jsonError 400
    ∧ downloadHandler (fun _ => true) "uploads" "../etc/passwd" = FileResult.jsonError 403
    ∧ (strStartsWith "/workspace/uploads/a.txt" (catDir "uploads" ++ "/") = true
        ∨ "/workspace/uploads/a.txt" = catDir "uploads") := by
  refine ⟨?_, ?_, ?_⟩
  · exact (download_guards (fun _ => true) "secrets" "x").1 (by decide) (by decide)
  · exact (download_guards (fun _ => true) "uploads" "../etc/passwd").2.1 (Or.inl rfl)
      (Or.inr (Or.inr (by decide)))
  · exact (download_guards (fun _ => true) "uploads" "a.txt").2.2
      "/workspace/uploads/a.txt" (by decide)

/-- Claim C9: the rate limiter admits at most 60 requests per fixed window per
client address: an address's first request opens a window (count 1, admitted);
within the window request number `i + 2` is admitted exactly when it stays
within the 60-request limit (so requests 61, 62, ... of the window get the
429 response and reach no handler); a request after the window has elapsed
opens a fresh window with count 1; and the periodic sweep removes exactly the
entries whose window started more than two window lengths ago. -/
theorem rate_limit_window (t0 now : Nat) (ts : List Nat) (e : RLEntry)
    (entries : List (String × RLEntry)) (kv : String × RLEntry)
    (hin : ∀ t ∈ ts, t - t0 ≤ RATE_LIMIT_WINDOW_MS) :
    rateLimit none t0 = (true, { windowStart := t0, count := 1 })
    ∧ (∀ i, i < ts.length →
        (runRL (some { windowStart := t0, count := 1 }) ts)[i]?
          = some (decide (i + 2 ≤ RATE_LIMIT_MAX_REQUESTS)))
    ∧ (now - e.windowStart > RATE_LIMIT_WINDOW_MS →
        rateLimit (some e) now = (true, { windowStart := now, count := 1 }))
    ∧ (kv ∈ sweep now entries ↔
        kv ∈ entries ∧ now - kv.2.windowStart ≤ RATE_LIMIT_WINDOW_MS * 2) := by
  refine ⟨rfl, ?_, ?_, ?_⟩
  · intro i hi
    have h := runRL_in_window t0 ts 1 hin i hi
    have harith : 1 + i + 1 = i + 2 := by omega
    simpa [harith] using h
  · intro hgt
    simp [rateLimit, hgt]
  · constructor
    · intro hmem
      have hsp := List.mem_filter.mp hmem
      refine ⟨hsp.1, ?_⟩
      have h2 := hsp.2
      simp only [decide_eq_true_eq, Nat.not_lt] at h2
      exact h2
    · rintro ⟨hm, hle⟩
      refine List.mem_filter.mpr ⟨hm, ?_⟩
      simp only [decide_eq_true_eq, Nat.not_lt]
      exact hle

/-- Witness for C9: a fresh window at t=0, 65 further in-window requests of
which number 5 (index 3) is admitted and number 64 (index 62) is refused, a
fresh window after expiry, and a sweep retaining a young entry. -/
theorem rate_limit_window_w :
    rateLimit none 0 = (true, { windowStart := 0, count := 1 })
    ∧ (runRL (some { windowStart := 0, count := 1 }) (List.replicate 65 30000))[3]?
        = some (decide (3 + 2 ≤ RATE_LIMIT_MAX_REQUESTS))
    ∧ (runRL (some { windowStart := 0, count := 1 }) (List.replicate 65 30000))[62]?
        = some (decide (62 + 2 ≤ RATE_LIMIT_MAX_REQUESTS))
    ∧ rateLimit (some { windowStart := 0, count := 7 }) 70000
        = (true, { windowStart := 70000, count := 1 })
    ∧ ("1.2.3.4", RLEntry.mk 0 3) ∈ sweep 100000 [("1.2.3.4", RLEntry.mk 0 3)] := by
  have h := rate_limit_window 0 70000 (List.replicate 65 30000)
    { windowStart := 0, count := 7 } [("1.2.3.4", RLEntry.mk 0 3)]
    ("1.2.3.4", RLEntry.mk 0 3) (by decide)
  exact ⟨h.1, h.2.1 3 (by decide), h.2.1 62 (by decide), h.2.2.1 (by decide),
    (h.2.2.2).mpr ⟨List.mem_singleton.mpr rfl, by decide⟩⟩

/-- Claim C10: a `session.idle` event carrying no `sessionID` passes the
session filter of every active (unfinished) relay, whatever its session id:
it is forwarded to that relay's client, its arrival is recorded, and the
relay's done-and-close grace callback is scheduled — so a single
sessionID-less idle event terminates every concurrently active relay stream,
not only the stream whose session went idle. -/
theorem idle_fanout (s : RelayState) (now : Nat) (e : UpEvent)
    (hf : s.finished = false) (ht : e.type = "session.idle")
    (hs : e.sessionID = none) :
    (step now s (Trigger.message (some e))).log = s.log ++ [(now, Output.event e)]
    ∧ (step now s (Trigger.message (some e))).pendingIdle = s.pendingIdle ++ [now + GRACE]
    ∧ (step now s (Trigger.message (some e))).idleTimes = s.idleTimes ++ [now] := by
  have hd : sessionFilterDrop s.id e = false := by
    simp [sessionFilterDrop, hs]
  refine ⟨?_, ?_, ?_⟩ <;> simp [step, hf, hd, ht]

/-- Witness for C10: the same sessionID-less idle event forwarded to and
scheduling the close of two concurrent relays with different session ids. -/
theorem idle_fanout_w :
    (step 5 (relayInit "s1")
        (Trigger.message (some { type := "session.idle", sessionID := none }))).pendingIdle
      = (relayInit "s1").pendingIdle ++ [5 + GRACE]
    ∧ (step 5 (relayInit "s2")
        (Trigger.message (some { type := "session.idle", sessionID := none }))).pendingIdle
      = (relayInit "s2").pendingIdle ++ [5 + GRACE]
    ∧ (step 5 (relayInit "s1")
        (Trigger.message (some { type := "session.idle", sessionID := none }))).log
      = (relayInit "s1").log
          ++ [(5, Output.event { type := "session.idle", sessionID := none })] := by
  refine ⟨?_, ?_, ?_⟩
  · exact (idle_fanout (relayInit "s1") 5
      { type := "session.idle", sessionID := none } rfl rfl rfl).2.1
  · exact (idle_fanout (relayInit "s2") 5
      { type := "session.idle", sessionID := none } rfl rfl rfl).2.1
  · exact (idle_fanout (relayInit "s1") 5
      { type := "session.idle", sessionID := none } rfl rfl rfl).1
